import Mathlib

/-!
# wingo, package `xclient`: bringing a window under management (`manage.go`)

A shallow embedding of `src/xclient/manage.go`.

* A `*Client` is a pointer `Ptr` into `World.heap`; `New` allocates the next
  free pointer.  The registries of package `wm`, `focus` and `stack` hold
  pointers, exactly as the Go slices hold `*Client` values.
* The X server and the packages outside `manage.go` are collected in `Env`:
  every property query is a function that answers `none` when the Go call
  returns an error.
* A Go `panic` is `Except.error`.
* Calls whose effect lives outside `manage.go` (`Map`, `focus.Focus`,
  `InitialPlacement`, ...) are recorded, in call order, in `World.trace`.
-/

namespace xclient

/-! ## Data model -/

/-- An X window id (`xproto.Window`, a `uint32`). -/
abbrev Window := Nat

/-- A `*Client`: an address in `World.heap`. -/
abbrev Ptr := Nat

/-- An `xrect.Rect`, as its four pieces. -/
structure Rect where
  x : Int
  y : Int
  width : Int
  height : Int
deriving DecidableEq, Repr, Inhabited

/-- The struct `icccm.Hints` (property `WM_HINTS`). -/
structure Hints where
  Flags : Nat := 0
  Input : Nat := 0
  InitialState : Nat := 0
  IconX : Int := 0
  IconY : Int := 0
  IconPixmap : Nat := 0
  IconMask : Nat := 0
  WindowGroup : Nat := 0
  IconWindow : Nat := 0
deriving DecidableEq, Repr, Inhabited

/-- The struct `icccm.NormalHints` (property `WM_NORMAL_HINTS`). -/
structure NormalHints where
  Flags : Nat := 0
  X : Int := 0
  Y : Int := 0
  Width : Nat := 0
  Height : Nat := 0
  MinWidth : Nat := 0
  MinHeight : Nat := 0
  MaxWidth : Nat := 0
  MaxHeight : Nat := 0
  WidthInc : Nat := 0
  HeightInc : Nat := 0
  MinAspectNum : Nat := 0
  MinAspectDen : Nat := 0
  MaxAspectNum : Nat := 0
  MaxAspectDen : Nat := 0
  BaseWidth : Nat := 0
  BaseHeight : Nat := 0
  WinGravity : Nat := 0
deriving DecidableEq, Repr, Inhabited

/-- Flag bit `icccm.HintInput` of `Hints.Flags` (ICCCM `InputHint`). -/
def HintInput : Nat := 1
/-- Flag bit `icccm.HintState` of `Hints.Flags` (ICCCM `StateHint`). -/
def HintState : Nat := 2
/-- Value `icccm.StateNormal` of `Hints.InitialState`. -/
def StateNormal : Nat := 1
/-- Value `icccm.StateIconic` of `Hints.InitialState`. -/
def StateIconic : Nat := 3
/-- Flag bit `icccm.SizeHintUSPosition` of `NormalHints.Flags`. -/
def SizeHintUSPosition : Nat := 1
/-- Flag bit `icccm.SizeHintPPosition` of `NormalHints.Flags`. -/
def SizeHintPPosition : Nat := 4

/-- Modelled from the spec: the constants `clientTypeNormal`,
`clientTypeDesktop`, `clientTypeDock` are declared outside `manage.go`; the
spec gives the closed tag set {desktop, dock, normal}.  `primaryType` is a Go
`int`, so the tags are three distinct numbers. -/
def clientTypeNormal : Nat := 0
/-- Modelled from the spec: see `clientTypeNormal`. -/
def clientTypeDesktop : Nat := 1
/-- Modelled from the spec: see `clientTypeNormal`. -/
def clientTypeDock : Nat := 2

/-- Modelled from the spec: the layer constants of package `stack` are not in
`manage.go`; the spec orders them desktop (lowest) below default below dock. -/
def LayerDesktop : Nat := 0
/-- Modelled from the spec: see `LayerDesktop`. -/
def LayerDefault : Nat := 2
/-- Modelled from the spec: see `LayerDesktop`. -/
def LayerDock : Nat := 4

/-- The constant `frame.Inactive`, the initial value of `Client.state`. -/
def frameInactive : Nat := 0

/-- The value of the field `Client.workspace` (interface
`workspace.Workspacer`): `nil`, a concrete `*workspace.Workspace`, or the
shared `wm.StickyWrk`. -/
inductive Workspacer where
  | nil
  | concrete (wrk : Nat)
  | StickyWrk
deriving DecidableEq, Repr, Inhabited

/-- The current frame of a client: which decoration it is, and its geometry
(`c.frame.Geom()`). -/
structure Frame where
  ref : Nat
  geom : Rect
deriving DecidableEq, Repr, Inhabited

/-- The struct `clientState` stored in `Client.states`. -/
structure clientState where
  geom : Rect
  headGeom : Rect
  frame : Nat
  maximized : Bool
deriving DecidableEq, Repr, Inhabited

/-- The struct `Client`, with the fields `manage.go` reads or writes.  `hints`
and `nhints` hold the pointee: `fetchXProperties` assigns both before any read.
The frame set and the prompts (`c.frames`, `c.prompts`) are not inspected by
`manage.go`; only the current frame `c.frame` is kept. -/
structure Client where
  win : Window
  name : String := "N/A"
  state : Nat := frameInactive
  layer : Nat := LayerDefault
  maximized : Bool := false
  iconified : Bool := false
  unmapIgnore : Nat := 0
  floating : Bool := false
  hints : Hints := {}
  nhints : NormalHints := {}
  protocols : List String := []
  winTypes : List String := []
  transientFor : Option Ptr := none
  primaryType : Nat := 0
  frame : Frame := default
  states : List (String × clientState) := []
  sticky : Bool := false
  workspace : Workspacer := Workspacer.nil
  hadStruts : Bool := false
deriving DecidableEq, Repr

instance : Inhabited Client := ⟨{ win := 0 }⟩

/-- Reading a Go map: `m[key]`, with `none` for an absent key. -/
def mapGet (m : List (String × clientState)) (key : String) : Option clientState :=
  match m with
  | [] => none
  | (k, v) :: rest => if k = key then some v else mapGet rest key

/-- Writing a Go map: `m[key] = v`. -/
def mapSet (m : List (String × clientState)) (key : String) (v : clientState) :
    List (String × clientState) :=
  match m with
  | [] => [(key, v)]
  | (k, v0) :: rest => if k = key then (k, v) :: rest else (k, v0) :: mapSet rest key v

/-! ## Classifier -/

/-- Modelled from the spec: `Client.hasType` is not in `manage.go`; it is
membership of the name in the declared window types. -/
def Client.hasType (c : Client) (name : String) : Bool :=
  decide (name ∈ c.winTypes)

/-- `Client.setPrimaryType` (manage.go 221-230). -/
def Client.setPrimaryType (c : Client) : Client :=
  if c.hasType "_NET_WM_WINDOW_TYPE_DESKTOP" then
    { c with primaryType := clientTypeDesktop }
  else if c.hasType "_NET_WM_WINDOW_TYPE_DOCK" then
    { c with primaryType := clientTypeDock }
  else
    { c with primaryType := clientTypeNormal }

/-- `Client.setInitialLayer` (manage.go 241-252); the `default` case panics. -/
def Client.setInitialLayer (c : Client) : Except String Client :=
  if c.primaryType = clientTypeDesktop then
    .ok { c with layer := LayerDesktop }
  else if c.primaryType = clientTypeDock then
    .ok { c with layer := LayerDock }
  else if c.primaryType = clientTypeNormal then
    .ok { c with layer := LayerDefault }
  else
    .error "Unimplemented client type."

/-! ## Global state and collaborators -/

/-- A call made by `manage.go` whose effect lies outside it. -/
inductive Event where
  | Grab
  | Ungrab
  | Map (c : Ptr)
  | Focus (c : Ptr)
  | InitialPlacement (c : Ptr)
  | attachEventCallbacks (c : Ptr)
  | ApplyStruts
  | CheckFloatingStatus (wrk : Nat) (c : Ptr)
  | WorkspaceAdd (wrk : Nat) (c : Ptr)
  | WorkspaceRemove (wrk : Nat) (c : Ptr)
deriving DecidableEq, Repr

/-- The process state `manage.go` works on: the allocated clients, the
registry `wm.Clients`, the focus stack, the stacking order, the active
workspace `wm.Workspace()` and the calls made so far. -/
structure World where
  heap : Ptr → Client
  next : Ptr
  Clients : List Ptr
  focusStack : List Ptr
  stacking : List Ptr
  activeWorkspace : Nat
  trace : List Event

/-- Every pointer held by the registry has been allocated. -/
def World.WF (w : World) : Prop := ∀ q ∈ w.Clients, q < w.next

/-- Assignment through a `*Client`. -/
def World.modify (w : World) (p : Ptr) (f : Client → Client) : World :=
  { w with heap := Function.update w.heap p (f (w.heap p)) }

/-- Record a call. -/
def World.emit (w : World) (e : Event) : World :=
  { w with trace := w.trace ++ [e] }

/-- The X server and the packages `manage.go` calls into.  A query answers
`none` where the Go function returns an error. -/
structure Env where
  /-- The method `xwindow.Window.Geometry`. -/
  Geometry : Window → Option Rect
  /-- The name `Client.refreshName` stores. -/
  refreshName : Window → String
  WmHintsGet : Window → Option Hints
  WmNormalHintsGet : Window → Option NormalHints
  WmProtocolsGet : Window → Option (List String)
  WmWindowTypeGet : Window → Option (List String)
  WmTransientForGet : Window → Option Window
  WmDesktopGet : Window → Option Nat
  WmStrutPartialGet : Window → Option (List Nat)
  /-- The predicate `c2.transient(c)`, given as `transient w c2 c`. -/
  transient : World → Ptr → Ptr → Bool
  /-- The frame `Client.newClientFrames` leaves in `c.frame`. -/
  newClientFrames : World → Ptr → Frame
  /-- The map `Client.newClientStates` returns. -/
  newClientStates : World → Ptr → List (String × clientState)
  /-- The geometry `Geom()` of a workspace. -/
  WorkspaceGeom : Nat → Rect
  /-- The workspace `wm.Heads.FindMostOverlap` returns, `none` for `nil`. -/
  FindMostOverlap : Rect → Option Nat
  /-- The function `heads.Convert`. -/
  Convert : Rect → Rect → Rect → Rect
  /-- The frame geometry the floating layout's `InitialPlacement(geom, c)`
  leaves the client with. -/
  InitialPlacement : Rect → World → Ptr → Rect

/-- Modelled from the spec: `wm.FindManagedClient` is not in `manage.go`;
`findManagedClient(id) -> Client|null` looks the id up in the registry. -/
def FindManagedClient (w : World) (id : Window) : Option Ptr :=
  w.Clients.find? (fun q => decide ((w.heap q).win = id))

/-- Modelled from the spec: `wm.AddClient` adds the client to the global
managed-clients registry. -/
def AddClient (p : Ptr) (w : World) : World :=
  { w with Clients := w.Clients ++ [p] }

/-- Modelled from the spec: `focus.InitialAdd` adds the client to the focus
stack. -/
def InitialAdd (p : Ptr) (w : World) : World :=
  { w with focusStack := w.focusStack ++ [p] }

/-- Modelled from the spec: `stack.Raise` raises the client to the top of the
stacking order. -/
def Raise (p : Ptr) (w : World) : World :=
  { w with stacking := p :: w.stacking.filter (fun q => decide (q ≠ p)) }

/-- Modelled from the spec: `Client.MoveResize` moves and resizes the client to
the given geometry. -/
def MoveResize (p : Ptr) (x y width height : Int) (w : World) : World :=
  w.modify p fun c =>
    { c with frame := { c.frame with geom := { x := x, y := y, width := width, height := height } } }

/-- Modelled from the spec: `Client.Move` moves the origin of the client and
leaves its size unchanged. -/
def Move (p : Ptr) (x y : Int) (w : World) : World :=
  w.modify p fun c =>
    { c with frame := { c.frame with geom := { c.frame.geom with x := x, y := y } } }

/-- Modelled from the spec: `Workspace.Add(c)` on a concrete workspace makes
that workspace the client's `workspace`. -/
def WorkspaceAdd (wrk : Nat) (p : Ptr) (w : World) : World :=
  (w.modify p fun c => { c with workspace := Workspacer.concrete wrk }).emit
    (Event.WorkspaceAdd wrk p)

/-! ## Stickiness -/

/-- `Client.unstick` (manage.go 114-118). -/
def unstick (p : Ptr) (w : World) : World :=
  let w := w.modify p fun c => { c with sticky := false }
  let w := w.modify p fun c => { c with workspace := Workspacer.nil }
  WorkspaceAdd w.activeWorkspace p w

/-- `Client.stick` (manage.go 120-127).  The type assertion
`c.workspace.(*workspace.Workspace)` panics on `wm.StickyWrk`. -/
def stick (p : Ptr) (w : World) : Except String World :=
  let w := w.modify p fun c => { c with sticky := true }
  match (w.heap p).workspace with
  | Workspacer.nil =>
    .ok (w.modify p fun c => { c with workspace := Workspacer.StickyWrk })
  | Workspacer.concrete wrk =>
    let w := w.emit (Event.CheckFloatingStatus wrk p)
    let w := w.emit (Event.WorkspaceRemove wrk p)
    .ok (w.modify p fun c => { c with workspace := Workspacer.StickyWrk })
  | Workspacer.StickyWrk =>
    .error "interface conversion: workspace.Workspacer is not *workspace.Workspace"

/-- `Client.StickyToggle` (manage.go 106-112). -/
def StickyToggle (p : Ptr) (w : World) : Except String World :=
  if (w.heap p).sticky then
    .ok (unstick p w)
  else
    stick p w

/-- A sequence of `n` calls of `StickyToggle`. -/
def StickyToggles (p : Ptr) : Nat → World → Except String World
  | 0, w => .ok w
  | n + 1, w =>
    match StickyToggle p w with
    | .ok w1 => StickyToggles p n w1
    | .error e => .error e

/-! ## The steps of `manage` -/

/-- `Client.maybeApplyStruts` (manage.go 129-134). -/
def maybeApplyStruts (env : Env) (p : Ptr) (w : World) : World :=
  match env.WmStrutPartialGet (w.heap p).win with
  | some _ =>
    let w := w.modify p fun c => { c with hadStruts := true }
    w.emit Event.ApplyStruts
  | none => w

/-- `Client.maybeInitPlace` (manage.go 136-169). -/
def maybeInitPlace (env : Env) (p : Ptr) (w : World) : World :=
  if (w.heap p).primaryType ≠ clientTypeNormal then
    w
  else if (w.heap p).transientFor ≠ none then
    w
  else if (w.heap p).nhints.Flags &&& SizeHintUSPosition > 0 ∨
      (w.heap p).nhints.Flags &&& SizeHintPPosition > 0 then
    w
  else
    let placed := env.InitialPlacement (env.WorkspaceGeom w.activeWorkspace) w p
    let w := (w.modify p fun c => { c with frame := { c.frame with geom := placed } }).emit
      (Event.InitialPlacement p)
    w.modify p fun c =>
      let snapshot : clientState :=
        { geom := c.frame.geom
          headGeom := env.WorkspaceGeom w.activeWorkspace
          frame := c.frame.ref
          maximized := c.maximized }
      { c with states := mapSet c.states "last-floating" snapshot }

/-- `Client.fetchXProperties` (manage.go 171-219). -/
def fetchXProperties (env : Env) (p : Ptr) (w : World) : World :=
  let id := (w.heap p).win
  let w := w.modify p fun c =>
    { c with hints :=
        match env.WmHintsGet id with
        | some h => h
        | none => { Flags := HintInput ||| HintState, Input := 1, InitialState := StateNormal } }
  let w := w.modify p fun c =>
    { c with nhints :=
        match env.WmNormalHintsGet id with
        | some h => h
        | none => {} }
  let w := w.modify p fun c => { c with protocols := (env.WmProtocolsGet id).getD [] }
  let w := w.modify p fun c =>
    { c with winTypes :=
        match env.WmWindowTypeGet id with
        | some ts => ts
        | none => ["_NET_WM_WINDOW_TYPE_NORMAL"] }
  let trans := (env.WmTransientForGet id).getD 0
  if trans = 0 then
    match w.Clients.find? (fun c2 => env.transient w c2 p) with
    | some c2 => w.modify p fun c => { c with transientFor := some c2 }
    | none => w
  else
    match FindManagedClient w trans with
    | some transCli => w.modify p fun c => { c with transientFor := some transCli }
    | none => w

/-- `Client.maybeAddToFocusStack` (manage.go 232-239). -/
def maybeAddToFocusStack (p : Ptr) (w : World) : World :=
  if (w.heap p).primaryType = clientTypeDesktop ∨ (w.heap p).primaryType = clientTypeDock then
    w
  else
    InitialAdd p w

/-- The first part of `Client.manage` (manage.go 58-86): everything before the
call of `maybeInitPlace`. -/
def manageUntilPlacement (env : Env) (p : Ptr) (w : World) : Except String World :=
  let w := w.modify p fun c => { c with name := env.refreshName c.win }
  let w := fetchXProperties env p w
  let w := w.modify p Client.setPrimaryType
  match (w.heap p).setInitialLayer with
  | .error e => .error e
  | .ok c1 =>
    let w := w.modify p fun _ => c1
    let w := w.modify p fun c =>
      { c with iconified :=
          decide (c.nhints.Flags &&& HintState > 0) && decide (c.hints.InitialState = StateIconic) }
    let w := w.modify p fun c => { c with frame := env.newClientFrames w p }
    let w := w.modify p fun c => { c with states := env.newClientStates w p }
    let oughtHeadGeom := env.WorkspaceGeom w.activeWorkspace
    let cgeom := (w.heap p).frame.geom
    match env.FindMostOverlap cgeom with
    | some wrk =>
      let isHeadGeom := env.WorkspaceGeom wrk
      let ngeom := env.Convert cgeom isHeadGeom oughtHeadGeom
      .ok (MoveResize p ngeom.x ngeom.y ngeom.width ngeom.height w)
    | none =>
      .ok (Move p oughtHeadGeom.x oughtHeadGeom.y w)

/-- The second part of `Client.manage` (manage.go 88-99): from the call of
`maybeInitPlace` to the end. -/
def manageFromPlacement (env : Env) (p : Ptr) (w : World) : Except String World :=
  let w := maybeInitPlace env p w
  let w := AddClient p w
  let w := maybeAddToFocusStack p w
  let w := Raise p w
  let w := w.emit (Event.attachEventCallbacks p)
  let w := maybeApplyStruts env p w
  if (env.WmDesktopGet (w.heap p).win).getD 0 = 0xFFFFFFFF then
    stick p w
  else
    .ok (unstick p w)

/-- `Client.manage` (manage.go 57-100). -/
def manage (env : Env) (p : Ptr) (w : World) : Except String World :=
  match manageUntilPlacement env p w with
  | .error e => .error e
  | .ok w => manageFromPlacement env p w

/-- Modelled from the spec: `Client.Map` makes the client visible on screen. -/
def Map (p : Ptr) (w : World) : World := w.emit (Event.Map p)

/-- Modelled from the spec: `focus.Focus` gives the client input focus. -/
def Focus (p : Ptr) (w : World) : World := w.emit (Event.Focus p)

/-- The composite literal `Client{...}` of `New` (manage.go 35-44); the fields
it does not name have their zero value. -/
def newClient (id : Window) : Client :=
  { win := id
    name := "N/A"
    state := frameInactive
    layer := LayerDefault
    maximized := false
    iconified := false
    unmapIgnore := 0
    floating := false }

/-- Allocation `&Client{...}`: the new client lives at the pointer `w.next`. -/
def World.alloc (w : World) (c : Client) : World :=
  { w with next := w.next + 1, heap := Function.update w.heap w.next c }

/-- The function `New` (manage.go 20-55).  The result is the returned `*Client`
(`none` for `nil`) and the state left behind. -/
def New (env : Env) (id : Window) (w : World) : Except String (Option Ptr × World) :=
  let w := w.emit Event.Grab
  match FindManagedClient w id with
  | some _ => .ok (none, w.emit Event.Ungrab)
  | none =>
    match env.Geometry id with
    | none => .ok (none, w.emit Event.Ungrab)
    | some _ =>
      let p := w.next
      let w := w.alloc (newClient id)
      match manage env p w with
      | .error e => .error e
      | .ok w =>
        let w :=
          if (w.heap p).iconified = false then
            let w := Map p w
            if (w.heap p).primaryType = clientTypeNormal then Focus p w else w
          else w
        .ok (some p, w.emit Event.Ungrab)

/-! ## Predicates used in the statements -/

/-- Eligibility for automatic initial placement, in the words of the spec:
`primaryType == normal`, `transientFor == null`, and neither the user-specified
(bit 0) nor the program-specified (bit 2) position flag of the normal hints. -/
def eligible (c : Client) : Prop :=
  c.primaryType = clientTypeNormal ∧ c.transientFor = none ∧
    c.nhints.Flags.testBit 0 = false ∧ c.nhints.Flags.testBit 2 = false

instance : DecidablePred eligible := fun c => by
  unfold eligible
  infer_instance

/-- The classifier in the words of the spec: first match in the priority
desktop > dock > normal, and the default layer of the type found. -/
def classify (winTypes : List String) : Nat × Nat :=
  if "_NET_WM_WINDOW_TYPE_DESKTOP" ∈ winTypes then (clientTypeDesktop, LayerDesktop)
  else if "_NET_WM_WINDOW_TYPE_DOCK" ∈ winTypes then (clientTypeDock, LayerDock)
  else (clientTypeNormal, LayerDefault)

/-- The WM hints after the fallback policy of the spec: the fetched value, or
{accepts input focus, initial state = normal}. -/
def resolvedHints (env : Env) (id : Window) : Hints :=
  (env.WmHintsGet id).getD
    { Flags := HintInput ||| HintState, Input := 1, InitialState := StateNormal }

/-- The normal hints after the fallback policy: the fetched value, or the empty
hint set. -/
def resolvedNormalHints (env : Env) (id : Window) : NormalHints :=
  (env.WmNormalHintsGet id).getD {}

/-- The declared window types after the fallback policy: the fetched list, or
the single type "normal". -/
def resolvedWinTypes (env : Env) (id : Window) : List String :=
  (env.WmWindowTypeGet id).getD ["_NET_WM_WINDOW_TYPE_NORMAL"]

/-- The state in which `New` calls `manage`: the server is grabbed and the new
client is allocated at `w.next`. -/
def enterManage (id : Window) (w : World) : World :=
  (w.emit Event.Grab).alloc (newClient id)

/-- The stickiness invariant, in the words of the spec: exactly one of (sticky
and the shared pseudo-workspace) and (not sticky and a concrete workspace). -/
def stickyInvariant (c : Client) : Prop :=
  Xor' (c.sticky = true ∧ c.workspace = Workspacer.StickyWrk)
    (c.sticky = false ∧ ∃ wrk, c.workspace = Workspacer.concrete wrk)

/-! ## Concrete inputs -/

/-- An empty process state: nothing allocated, nothing managed. -/
def emptyWorld : World :=
  { heap := fun _ => default
    next := 0
    Clients := []
    focusStack := []
    stacking := []
    activeWorkspace := 0
    trace := [] }

/-- An X server on which the geometry of every window can be queried and every
property query fails.  A new frame sits at (5, 5); the floating layout places a
client at (7, 7). -/
def envNoProperties : Env :=
  { Geometry := fun _ => some ⟨0, 0, 10, 10⟩
    refreshName := fun _ => "N/A"
    WmHintsGet := fun _ => none
    WmNormalHintsGet := fun _ => none
    WmProtocolsGet := fun _ => none
    WmWindowTypeGet := fun _ => none
    WmTransientForGet := fun _ => none
    WmDesktopGet := fun _ => none
    WmStrutPartialGet := fun _ => none
    transient := fun _ _ _ => false
    newClientFrames := fun _ _ => ⟨0, ⟨5, 5, 10, 10⟩⟩
    newClientStates := fun _ _ => []
    WorkspaceGeom := fun _ => ⟨0, 0, 100, 100⟩
    FindMostOverlap := fun _ => none
    Convert := fun g _ _ => g
    InitialPlacement := fun _ _ _ => ⟨7, 7, 10, 10⟩ }

/-- As `envNoProperties`, but the window carries normal hints with the
program-specified position flag set. -/
def envPPosition : Env :=
  { envNoProperties with
    WmNormalHintsGet := fun _ => some { Flags := SizeHintPPosition, X := 3, Y := 4 } }

/-- As `envNoProperties`, but the window carries WM hints with the state flag
set and initial state iconic. -/
def envIconic : Env :=
  { envNoProperties with
    WmHintsGet := fun _ => some { Flags := HintState, InitialState := StateIconic } }

/-- A process state with one managed client, for window 3, at pointer 0, on
workspace 0. -/
def worldWithClient : World :=
  { heap := fun q =>
      if q = 0 then
        { win := 3, winTypes := ["_NET_WM_WINDOW_TYPE_NORMAL"],
          workspace := Workspacer.concrete 0 }
      else default
    next := 1
    Clients := [0]
    focusStack := [0]
    stacking := [0]
    activeWorkspace := 0
    trace := [] }

/-- As `envNoProperties`, but every window declares itself transient for
window 3. -/
def envTransientFor3 : Env :=
  { envNoProperties with WmTransientForGet := fun _ => some 3 }

/-- As `envNoProperties`, but every window asks to be on all desktops. -/
def envAllDesktops : Env :=
  { envNoProperties with WmDesktopGet := fun _ => some 0xFFFFFFFF }

/-! ## Theorems -/

/-! ### Helper lemmas -/

@[simp] theorem World.modify_heap_self (w : World) (p : Ptr) (f : Client → Client) :
    (w.modify p f).heap p = f (w.heap p) := by
  simp [World.modify]

theorem World.modify_heap_other (w : World) (p q : Ptr) (f : Client → Client) (h : q ≠ p) :
    (w.modify p f).heap q = w.heap q := by
  simp [World.modify, Function.update, h]

@[simp] theorem World.modify_next (w : World) (p : Ptr) (f : Client → Client) :
    (w.modify p f).next = w.next := rfl

@[simp] theorem World.modify_Clients (w : World) (p : Ptr) (f : Client → Client) :
    (w.modify p f).Clients = w.Clients := rfl

@[simp] theorem World.modify_focusStack (w : World) (p : Ptr) (f : Client → Client) :
    (w.modify p f).focusStack = w.focusStack := rfl

@[simp] theorem World.modify_stacking (w : World) (p : Ptr) (f : Client → Client) :
    (w.modify p f).stacking = w.stacking := rfl

@[simp] theorem World.modify_activeWorkspace (w : World) (p : Ptr) (f : Client → Client) :
    (w.modify p f).activeWorkspace = w.activeWorkspace := rfl

@[simp] theorem World.modify_trace (w : World) (p : Ptr) (f : Client → Client) :
    (w.modify p f).trace = w.trace := rfl

@[simp] theorem World.emit_heap (w : World) (e : Event) : (w.emit e).heap = w.heap := rfl

@[simp] theorem World.emit_next (w : World) (e : Event) : (w.emit e).next = w.next := rfl

@[simp] theorem World.emit_Clients (w : World) (e : Event) :
    (w.emit e).Clients = w.Clients := rfl

@[simp] theorem World.emit_focusStack (w : World) (e : Event) :
    (w.emit e).focusStack = w.focusStack := rfl

@[simp] theorem World.emit_stacking (w : World) (e : Event) :
    (w.emit e).stacking = w.stacking := rfl

@[simp] theorem World.emit_activeWorkspace (w : World) (e : Event) :
    (w.emit e).activeWorkspace = w.activeWorkspace := rfl

@[simp] theorem World.emit_trace (w : World) (e : Event) :
    (w.emit e).trace = w.trace ++ [e] := rfl

/-- The test `n & (1 << i) > 0` of Go reads bit `i` of `n`. -/
theorem and_two_pow_pos (n i : Nat) : n &&& 2 ^ i > 0 ↔ n.testBit i = true := by
  constructor
  · intro h
    by_contra hb
    have hz : n &&& 2 ^ i = 0 := by
      apply Nat.eq_of_testBit_eq
      intro j
      by_cases hij : i = j
      · subst hij
        simp [Nat.testBit_two_pow, hb]
      · simp [Nat.testBit_two_pow, hij]
    omega
  · intro h
    have hb : (n &&& 2 ^ i).testBit i = true := by simp [Nat.testBit_two_pow, h]
    rcases Nat.eq_zero_or_pos (n &&& 2 ^ i) with h0 | h0
    · rw [h0] at hb
      simp at hb
    · exact h0

theorem and_USPosition_pos (n : Nat) : n &&& SizeHintUSPosition > 0 ↔ n.testBit 0 = true :=
  and_two_pow_pos n 0

theorem and_PPosition_pos (n : Nat) : n &&& SizeHintPPosition > 0 ↔ n.testBit 2 = true :=
  and_two_pow_pos n 2

/-- The guards of `maybeInitPlace` all fall through exactly for an eligible client. -/
theorem maybeInitPlace_of_eligible (env : Env) (p : Ptr) (w : World) (h : eligible (w.heap p)) :
    maybeInitPlace env p w =
      (((w.modify p fun c =>
          { c with frame :=
              { c.frame with
                geom := env.InitialPlacement (env.WorkspaceGeom w.activeWorkspace) w p } }).emit
        (Event.InitialPlacement p)).modify p fun c =>
          let snapshot : clientState :=
            { geom := c.frame.geom
              headGeom := env.WorkspaceGeom w.activeWorkspace
              frame := c.frame.ref
              maximized := c.maximized }
          { c with states := mapSet c.states "last-floating" snapshot }) := by
  obtain ⟨h1, h2, h3, h4⟩ := h
  have h3n : ¬ ((w.heap p).nhints.Flags &&& SizeHintUSPosition > 0) := by
    rw [and_USPosition_pos]
    simp [h3]
  have h4n : ¬ ((w.heap p).nhints.Flags &&& SizeHintPPosition > 0) := by
    rw [and_PPosition_pos]
    simp [h4]
  unfold maybeInitPlace
  rw [if_neg (by simpa using h1), if_neg (by simpa using h2), if_neg (by tauto)]
  rfl

/-- An ineligible client leaves `maybeInitPlace` through one of the early returns. -/
theorem maybeInitPlace_of_not_eligible (env : Env) (p : Ptr) (w : World)
    (h : ¬ eligible (w.heap p)) : maybeInitPlace env p w = w := by
  unfold maybeInitPlace
  by_cases h1 : (w.heap p).primaryType = clientTypeNormal
  · by_cases h2 : (w.heap p).transientFor = none
    · by_cases h3 : (w.heap p).nhints.Flags &&& SizeHintUSPosition > 0 ∨
          (w.heap p).nhints.Flags &&& SizeHintPPosition > 0
      · rw [if_neg (by simpa using h1), if_neg (by simpa using h2), if_pos h3]
      · exfalso
        apply h
        rw [and_USPosition_pos, and_PPosition_pos] at h3
        refine ⟨h1, h2, ?_, ?_⟩
        · cases hb : (w.heap p).nhints.Flags.testBit 0 <;> simp_all
        · cases hb : (w.heap p).nhints.Flags.testBit 2 <;> simp_all
    · rw [if_neg (by simpa using h1), if_pos h2]
  · rw [if_pos h1]

theorem mapGet_mapSet (m : List (String × clientState)) (key : String) (v : clientState) :
    mapGet (mapSet m key v) key = some v := by
  induction m with
  | nil => simp [mapSet, mapGet]
  | cons kv rest ih =>
    obtain ⟨k, v0⟩ := kv
    by_cases hk : k = key
    · simp [mapSet, mapGet, hk]
    · simp [mapSet, mapGet, hk, ih]


theorem World.modify_modify (w : World) (p : Ptr) (f g : Client → Client) :
    (w.modify p f).modify p g = w.modify p (fun c => g (f c)) := by
  simp [World.modify]

theorem World.modify_congr (w : World) (p : Ptr) (f g : Client → Client)
    (h : f (w.heap p) = g (w.heap p)) : w.modify p f = w.modify p g := by
  simp [World.modify, h]

theorem FindManagedClient_congr (w w1 : World) (id : Window) (hC : w1.Clients = w.Clients)
    (hwin : ∀ q, (w1.heap q).win = (w.heap q).win) :
    FindManagedClient w1 id = FindManagedClient w id := by
  unfold FindManagedClient
  rw [hC]
  congr 1
  funext q
  rw [hwin q]

theorem FindManagedClient_mem (w : World) (id : Window) (q : Ptr)
    (h : FindManagedClient w id = some q) : q ∈ w.Clients ∧ (w.heap q).win = id := by
  unfold FindManagedClient at h
  exact ⟨List.mem_of_find?_eq_some h, by simpa using List.find?_some h⟩

theorem fetchXProperties_eq (env : Env) (p : Ptr) (w : World) :
    ∃ t, fetchXProperties env p w = w.modify p (fun c =>
        { c with
          hints := (env.WmHintsGet (w.heap p).win).getD
            { Flags := HintInput ||| HintState, Input := 1, InitialState := StateNormal }
          nhints := (env.WmNormalHintsGet (w.heap p).win).getD {}
          protocols := (env.WmProtocolsGet (w.heap p).win).getD []
          winTypes := (env.WmWindowTypeGet (w.heap p).win).getD ["_NET_WM_WINDOW_TYPE_NORMAL"]
          transientFor := t }) ∧
      ((t = (w.heap p).transientFor ∧
          ((env.WmTransientForGet (w.heap p).win).getD 0 ≠ 0 →
            FindManagedClient w ((env.WmTransientForGet (w.heap p).win).getD 0) = none)) ∨
        ∃ q ∈ w.Clients, t = some q ∧
          ((env.WmTransientForGet (w.heap p).win).getD 0 ≠ 0 →
            FindManagedClient w ((env.WmTransientForGet (w.heap p).win).getD 0) = some q)) := by
  have hcongr : ∀ (f : Client → Client) (x : Window), (∀ c, (f c).win = c.win) →
      FindManagedClient (w.modify p f) x = FindManagedClient w x := by
    intro f x hf
    apply FindManagedClient_congr
    · rfl
    · intro q
      by_cases hq : q = p
      · subst hq
        simp [hf]
      · simp [World.modify_heap_other, hq]
  have key : ∀ t : Option Ptr,
      ((((w.modify p fun c =>
        { c with hints :=
            match env.WmHintsGet (w.heap p).win with
            | some h => h
            | none => { Flags := HintInput ||| HintState, Input := 1, InitialState := StateNormal } }).modify p
        fun c =>
        { c with nhints :=
            match env.WmNormalHintsGet (w.heap p).win with
            | some h => h
            | none => {} }).modify p
        fun c => { c with protocols := (env.WmProtocolsGet (w.heap p).win).getD [] }).modify p
        fun c =>
        { c with winTypes :=
            match env.WmWindowTypeGet (w.heap p).win with
            | some ts => ts
            | none => ["_NET_WM_WINDOW_TYPE_NORMAL"] }).modify p
        (fun c => { c with transientFor := t }) =
      w.modify p (fun c =>
        { c with
          hints := (env.WmHintsGet (w.heap p).win).getD
            { Flags := HintInput ||| HintState, Input := 1, InitialState := StateNormal }
          nhints := (env.WmNormalHintsGet (w.heap p).win).getD {}
          protocols := (env.WmProtocolsGet (w.heap p).win).getD []
          winTypes := (env.WmWindowTypeGet (w.heap p).win).getD ["_NET_WM_WINDOW_TYPE_NORMAL"]
          transientFor := t }) := by
    intro t
    simp only [World.modify_modify]
    apply World.modify_congr
    cases env.WmHintsGet (w.heap p).win <;> cases env.WmNormalHintsGet (w.heap p).win <;>
      cases env.WmWindowTypeGet (w.heap p).win <;> rfl
  have key0 :
      (((w.modify p fun c =>
        { c with hints :=
            match env.WmHintsGet (w.heap p).win with
            | some h => h
            | none => { Flags := HintInput ||| HintState, Input := 1, InitialState := StateNormal } }).modify p
        fun c =>
        { c with nhints :=
            match env.WmNormalHintsGet (w.heap p).win with
            | some h => h
            | none => {} }).modify p
        fun c => { c with protocols := (env.WmProtocolsGet (w.heap p).win).getD [] }).modify p
        (fun c =>
        { c with winTypes :=
            match env.WmWindowTypeGet (w.heap p).win with
            | some ts => ts
            | none => ["_NET_WM_WINDOW_TYPE_NORMAL"] }) =
      w.modify p (fun c =>
        { c with
          hints := (env.WmHintsGet (w.heap p).win).getD
            { Flags := HintInput ||| HintState, Input := 1, InitialState := StateNormal }
          nhints := (env.WmNormalHintsGet (w.heap p).win).getD {}
          protocols := (env.WmProtocolsGet (w.heap p).win).getD []
          winTypes := (env.WmWindowTypeGet (w.heap p).win).getD ["_NET_WM_WINDOW_TYPE_NORMAL"]
          transientFor := (w.heap p).transientFor }) := by
    simp only [World.modify_modify]
    apply World.modify_congr
    cases env.WmHintsGet (w.heap p).win <;> cases env.WmNormalHintsGet (w.heap p).win <;>
      cases env.WmWindowTypeGet (w.heap p).win <;> rfl
  unfold fetchXProperties
  simp only []
  split
  · split
    · rename_i c2 hfind
      exact ⟨some c2, key _, Or.inr ⟨c2, List.mem_of_find?_eq_some hfind, rfl,
        fun hne => absurd (by assumption) hne⟩⟩
    · exact ⟨(w.heap p).transientFor, key0, Or.inl ⟨rfl, fun hne => absurd (by assumption) hne⟩⟩
  · split
    · rename_i transCli hfind
      refine ⟨some transCli, key _, Or.inr ⟨transCli, ?_, rfl, fun _ => ?_⟩⟩
      · exact (FindManagedClient_mem _ _ _ hfind).1
      · rw [← hfind]
        simp only [World.modify_modify]
        refine (hcongr _ _ ?_).symm
        intro c
        rfl
    · rename_i hfind
      refine ⟨(w.heap p).transientFor, key0, Or.inl ⟨rfl, fun _ => ?_⟩⟩
      rw [← hfind]
      simp only [World.modify_modify]
      refine (hcongr _ _ ?_).symm
      intro c
      rfl

theorem setInitialLayer_setPrimaryType (c : Client) :
    c.setPrimaryType.setInitialLayer =
      Except.ok { c with primaryType := (classify c.winTypes).1, layer := (classify c.winTypes).2 } := by
  unfold Client.setPrimaryType Client.setInitialLayer Client.hasType classify
  by_cases h1 : "_NET_WM_WINDOW_TYPE_DESKTOP" ∈ c.winTypes
  · simp [h1]
  · by_cases h2 : "_NET_WM_WINDOW_TYPE_DOCK" ∈ c.winTypes
    · simp [h1, h2, clientTypeDesktop, clientTypeDock]
    · simp [h1, h2, clientTypeDesktop, clientTypeDock, clientTypeNormal]

theorem manageUntilPlacement_eq (env : Env) (p : Ptr) (w : World) :
    ∃ c1, manageUntilPlacement env p w = Except.ok (w.modify p fun _ => c1) ∧
      c1 =
        { w.heap p with
          name := env.refreshName (w.heap p).win
          hints := resolvedHints env (w.heap p).win
          nhints := resolvedNormalHints env (w.heap p).win
          protocols := (env.WmProtocolsGet (w.heap p).win).getD []
          winTypes := resolvedWinTypes env (w.heap p).win
          transientFor := c1.transientFor
          primaryType := (classify (resolvedWinTypes env (w.heap p).win)).1
          layer := (classify (resolvedWinTypes env (w.heap p).win)).2
          iconified :=
            decide ((resolvedNormalHints env (w.heap p).win).Flags &&& HintState > 0) &&
              decide ((resolvedHints env (w.heap p).win).InitialState = StateIconic)
          frame := c1.frame
          states := c1.states } ∧
      ((c1.transientFor = (w.heap p).transientFor ∧
          ((env.WmTransientForGet (w.heap p).win).getD 0 ≠ 0 →
            FindManagedClient w ((env.WmTransientForGet (w.heap p).win).getD 0) = none)) ∨
        ∃ q ∈ w.Clients, c1.transientFor = some q ∧
          ((env.WmTransientForGet (w.heap p).win).getD 0 ≠ 0 →
            FindManagedClient w ((env.WmTransientForGet (w.heap p).win).getD 0) = some q)) := by
  unfold manageUntilPlacement
  simp only []
  obtain ⟨t, hf, ht⟩ := fetchXProperties_eq env p
    (w.modify p fun c => { c with name := env.refreshName c.win })
  rw [hf]
  simp only [World.modify_modify, World.modify_heap_self, setInitialLayer_setPrimaryType]
  have hcongr : ∀ x : Window,
      FindManagedClient (w.modify p fun c => { c with name := env.refreshName c.win }) x =
        FindManagedClient w x := by
    intro x
    apply FindManagedClient_congr
    · rfl
    · intro q
      by_cases hq : q = p
      · subst hq
        simp
      · simp [World.modify_heap_other, hq]
  have ht2 : (t = (w.heap p).transientFor ∧
          ((env.WmTransientForGet (w.heap p).win).getD 0 ≠ 0 →
            FindManagedClient w ((env.WmTransientForGet (w.heap p).win).getD 0) = none)) ∨
        ∃ q ∈ w.Clients, t = some q ∧
          ((env.WmTransientForGet (w.heap p).win).getD 0 ≠ 0 →
            FindManagedClient w ((env.WmTransientForGet (w.heap p).win).getD 0) = some q) := by
    rcases ht with ⟨ht, hq3⟩ | ⟨q, hq, hq2, hq3⟩
    · left
      refine ⟨by simpa using ht, fun hne => ?_⟩
      have h3 := hq3 (by simpa using hne)
      simp only [World.modify_heap_self] at h3
      rw [← h3, hcongr]
    · right
      refine ⟨q, hq, hq2, fun hne => ?_⟩
      have h3 := hq3 (by simpa using hne)
      simp only [World.modify_heap_self] at h3
      rw [← h3, hcongr]
  split
  · simp only [MoveResize, World.modify_modify]
    exact ⟨_, rfl, rfl, ht2⟩
  · simp only [Move, World.modify_modify]
    exact ⟨_, rfl, rfl, ht2⟩

theorem maybeInitPlace_frame (env : Env) (p : Ptr) (w : World) :
    (maybeInitPlace env p w).Clients = w.Clients ∧
    (maybeInitPlace env p w).next = w.next ∧
    (maybeInitPlace env p w).activeWorkspace = w.activeWorkspace ∧
    (maybeInitPlace env p w).focusStack = w.focusStack ∧
    (maybeInitPlace env p w).stacking = w.stacking ∧
    (∀ q, q ≠ p → (maybeInitPlace env p w).heap q = w.heap q) ∧
    (maybeInitPlace env p w).heap p =
      { w.heap p with
        frame := ((maybeInitPlace env p w).heap p).frame
        states := ((maybeInitPlace env p w).heap p).states } := by
  by_cases h : eligible (w.heap p)
  · rw [maybeInitPlace_of_eligible env p w h]
    refine ⟨rfl, rfl, rfl, rfl, rfl, ?_, ?_⟩
    · intro q hq
      simp [World.modify_heap_other, hq]
    · simp
  · rw [maybeInitPlace_of_not_eligible env p w h]
    simp

theorem manageFromPlacement_eq (env : Env) (p : Ptr) (w : World)
    (hws : (w.heap p).workspace = Workspacer.nil) :
    ∃ w3, manageFromPlacement env p w = Except.ok w3 ∧
      w3.Clients = w.Clients ++ [p] ∧
      w3.next = w.next ∧
      w3.activeWorkspace = w.activeWorkspace ∧
      (∀ q, q ≠ p → w3.heap q = w.heap q) ∧
      w3.heap p =
        { (maybeInitPlace env p w).heap p with
          hadStruts := w3.heap p |>.hadStruts
          sticky := decide ((env.WmDesktopGet (w.heap p).win).getD 0 = 0xFFFFFFFF)
          workspace :=
            if (env.WmDesktopGet (w.heap p).win).getD 0 = 0xFFFFFFFF then Workspacer.StickyWrk
            else Workspacer.concrete w.activeWorkspace } ∧
      w3.trace = (maybeInitPlace env p w).trace ++
        (Event.attachEventCallbacks p ::
          ((if (env.WmStrutPartialGet (w.heap p).win).isSome then [Event.ApplyStruts] else []) ++
           (if (env.WmDesktopGet (w.heap p).win).getD 0 = 0xFFFFFFFF then []
            else [Event.WorkspaceAdd w.activeWorkspace p]))) := by
  obtain ⟨hC, hn, ha, -, -, ho, hp⟩ := maybeInitPlace_frame env p w
  have hwin : ((maybeInitPlace env p w).heap p).win = (w.heap p).win := by rw [hp]
  have hwk : ((maybeInitPlace env p w).heap p).workspace = Workspacer.nil := by rw [hp]; exact hws
  unfold manageFromPlacement
  simp only []
  generalize maybeInitPlace env p w = w2 at *
  have hheap : ∀ w0 : World, (maybeAddToFocusStack p w0).heap = w0.heap := by
    intro w0
    unfold maybeAddToFocusStack
    split <;> rfl
  have hnext : ∀ w0 : World, (maybeAddToFocusStack p w0).next = w0.next := by
    intro w0
    unfold maybeAddToFocusStack
    split <;> rfl
  have hact : ∀ w0 : World, (maybeAddToFocusStack p w0).activeWorkspace = w0.activeWorkspace := by
    intro w0
    unfold maybeAddToFocusStack
    split <;> rfl
  have hcl : ∀ w0 : World, (maybeAddToFocusStack p w0).Clients = w0.Clients := by
    intro w0
    unfold maybeAddToFocusStack
    split <;> rfl
  have htr : ∀ w0 : World, (maybeAddToFocusStack p w0).trace = w0.trace := by
    intro w0
    unfold maybeAddToFocusStack
    split <;> rfl
  generalize hw3 : maybeAddToFocusStack p (AddClient p w2) = w3
  have e1 : w3.heap = w2.heap := by rw [← hw3, hheap]; rfl
  have e2 : w3.next = w2.next := by rw [← hw3, hnext]; rfl
  have e3 : w3.activeWorkspace = w2.activeWorkspace := by rw [← hw3, hact]; rfl
  have e4 : w3.Clients = w2.Clients ++ [p] := by rw [← hw3, hcl]; rfl
  have e5 : w3.trace = w2.trace := by rw [← hw3, htr]; rfl
  clear hheap hnext hact hcl htr hw3
  by_cases hd : (env.WmDesktopGet (w.heap p).win).getD 0 = 0xFFFFFFFF
  · cases hs : env.WmStrutPartialGet (w.heap p).win
    · simp [maybeApplyStruts, Raise, stick, e1, e2, e3, e4, e5, hwin, hwk, hd, hs, hC, hn, ha]
      intro q hq
      simp [World.modify_heap_other, hq, ho q hq]
    · simp [maybeApplyStruts, Raise, stick, e1, e2, e3, e4, e5, hwin, hwk, hd, hs, hC, hn, ha]
      intro q hq
      simp [World.modify_heap_other, hq, ho q hq]
  · cases hs : env.WmStrutPartialGet (w.heap p).win
    · simp [maybeApplyStruts, Raise, unstick, WorkspaceAdd, e1, e2, e3, e4, e5, hwin, hwk, hd, hs,
        hC, hn, ha]
      intro q hq
      simp [World.modify_heap_other, hq, ho q hq]
    · simp [maybeApplyStruts, Raise, unstick, WorkspaceAdd, e1, e2, e3, e4, e5, hwin, hwk, hd, hs,
        hC, hn, ha]
      intro q hq
      simp [World.modify_heap_other, hq, ho q hq]


@[simp] theorem enterManage_heap_next (id : Window) (w : World) :
    (enterManage id w).heap w.next = newClient id := by
  simp [enterManage, World.alloc]

theorem enterManage_heap_other (id : Window) (w : World) (q : Ptr) (h : q ≠ w.next) :
    (enterManage id w).heap q = w.heap q := by
  simp [enterManage, World.alloc, Function.update, h]

@[simp] theorem enterManage_Clients (id : Window) (w : World) :
    (enterManage id w).Clients = w.Clients := rfl

@[simp] theorem enterManage_next (id : Window) (w : World) :
    (enterManage id w).next = w.next + 1 := rfl

@[simp] theorem enterManage_activeWorkspace (id : Window) (w : World) :
    (enterManage id w).activeWorkspace = w.activeWorkspace := rfl

@[simp] theorem enterManage_trace (id : Window) (w : World) :
    (enterManage id w).trace = w.trace ++ [Event.Grab] := rfl

@[simp] theorem enterManage_focusStack (id : Window) (w : World) :
    (enterManage id w).focusStack = w.focusStack := rfl

@[simp] theorem enterManage_stacking (id : Window) (w : World) :
    (enterManage id w).stacking = w.stacking := rfl

/-- What the successful path of `New` does, step by step. -/
theorem New_run (env : Env) (id : Window) (w : World) (g : Rect)
    (hfind : FindManagedClient w id = none) (hg : env.Geometry id = some g) :
    ∃ c1 w3,
      manageUntilPlacement env w.next (enterManage id w) =
        Except.ok ((enterManage id w).modify w.next fun _ => c1) ∧
      c1 =
        { newClient id with
          name := env.refreshName id
          hints := resolvedHints env id
          nhints := resolvedNormalHints env id
          protocols := (env.WmProtocolsGet id).getD []
          winTypes := resolvedWinTypes env id
          transientFor := c1.transientFor
          primaryType := (classify (resolvedWinTypes env id)).1
          layer := (classify (resolvedWinTypes env id)).2
          iconified :=
            decide ((resolvedNormalHints env id).Flags &&& HintState > 0) &&
              decide ((resolvedHints env id).InitialState = StateIconic)
          frame := c1.frame
          states := c1.states } ∧
      ((c1.transientFor = none ∧
          ((env.WmTransientForGet id).getD 0 ≠ 0 →
            FindManagedClient (enterManage id w) ((env.WmTransientForGet id).getD 0) = none)) ∨
        ∃ q ∈ w.Clients, c1.transientFor = some q ∧
          ((env.WmTransientForGet id).getD 0 ≠ 0 →
            FindManagedClient (enterManage id w) ((env.WmTransientForGet id).getD 0) = some q)) ∧
      manage env w.next (enterManage id w) = Except.ok w3 ∧
      w3.Clients = w.Clients ++ [w.next] ∧
      w3.next = w.next + 1 ∧
      w3.activeWorkspace = w.activeWorkspace ∧
      (∀ q, q ≠ w.next → w3.heap q = w.heap q) ∧
      w3.heap w.next =
        { (maybeInitPlace env w.next ((enterManage id w).modify w.next fun _ => c1)).heap w.next with
          hadStruts := (w3.heap w.next).hadStruts
          sticky := decide ((env.WmDesktopGet id).getD 0 = 0xFFFFFFFF)
          workspace :=
            if (env.WmDesktopGet id).getD 0 = 0xFFFFFFFF then Workspacer.StickyWrk
            else Workspacer.concrete w.activeWorkspace } ∧
      w3.trace =
        (maybeInitPlace env w.next ((enterManage id w).modify w.next fun _ => c1)).trace ++
          (Event.attachEventCallbacks w.next ::
            ((if (env.WmStrutPartialGet id).isSome then [Event.ApplyStruts] else []) ++
             (if (env.WmDesktopGet id).getD 0 = 0xFFFFFFFF then []
              else [Event.WorkspaceAdd w.activeWorkspace w.next]))) ∧
      New env id w = Except.ok (some w.next,
        (if (w3.heap w.next).iconified = false then
          (if (w3.heap w.next).primaryType = clientTypeNormal then Focus w.next (Map w.next w3)
           else Map w.next w3)
         else w3).emit Event.Ungrab) := by
  obtain ⟨c1, h1, h2, h3⟩ := manageUntilPlacement_eq env w.next (enterManage id w)
  simp only [enterManage_heap_next, enterManage_Clients] at h2 h3
  have hc1ws : c1.workspace = Workspacer.nil := by rw [h2]; rfl
  have hc1win : c1.win = id := by rw [h2]; rfl
  obtain ⟨w3, k1, k2, k3, k4, k5, k6, k7⟩ := manageFromPlacement_eq env w.next
    ((enterManage id w).modify w.next fun _ => c1) (by simpa using hc1ws)
  simp only [World.modify_heap_self, World.modify_Clients, World.modify_next,
    World.modify_activeWorkspace, enterManage_Clients, enterManage_next,
    enterManage_activeWorkspace, hc1win] at k2 k3 k4 k6 k7
  have hmanage : manage env w.next (enterManage id w) = Except.ok w3 := by
    unfold manage
    rw [h1]
    exact k1
  refine ⟨c1, w3, h1, ?_, ?_, hmanage, k2, k3, k4, ?_, k6, k7, ?_⟩
  · exact h2
  · rcases h3 with ⟨h3, h3b⟩ | h3
    · left
      refine ⟨?_, h3b⟩
      rw [h3]
      rfl
    · right
      exact h3
  · intro q hq
    rw [k5 q hq, World.modify_heap_other _ _ _ _ hq, enterManage_heap_other _ _ _ hq]
  · unfold New
    have hfind2 : FindManagedClient (w.emit Event.Grab) id = none := by
      rw [← hfind]
      exact FindManagedClient_congr _ _ _ rfl (fun _ => rfl)
    simp only [hfind2, hg]
    change (match manage env w.next (enterManage id w) with
      | Except.error e => Except.error e
      | Except.ok w => _) = _
    rw [hmanage]
    simp only [Map, Focus, World.emit_heap, World.emit_next]


/-- The calls `maybeInitPlace` adds to the trace. -/
theorem maybeInitPlace_trace (env : Env) (p : Ptr) (w : World) :
    (maybeInitPlace env p w).trace =
      w.trace ++ (if eligible (w.heap p) then [Event.InitialPlacement p] else []) := by
  by_cases h : eligible (w.heap p)
  · rw [if_pos h, maybeInitPlace_of_eligible env p w h]
    simp
  · rw [if_neg h, maybeInitPlace_of_not_eligible env p w h]
    simp

/-- The client `New` returns: the record it is left with, the registry, and
the calls made by `manage`. -/
theorem New_result (env : Env) (id : Window) (w : World) (g : Rect)
    (hfind : FindManagedClient w id = none) (hg : env.Geometry id = some g) :
    ∃ w3,
      manage env w.next (enterManage id w) = Except.ok w3 ∧
      New env id w = Except.ok (some w.next,
        (if (w3.heap w.next).iconified = false then
          (if (w3.heap w.next).primaryType = clientTypeNormal then Focus w.next (Map w.next w3)
           else Map w.next w3)
         else w3).emit Event.Ungrab) ∧
      w3.Clients = w.Clients ++ [w.next] ∧
      (∀ q, q ≠ w.next → w3.heap q = w.heap q) ∧
      w3.heap w.next =
        { newClient id with
          name := env.refreshName id
          hints := resolvedHints env id
          nhints := resolvedNormalHints env id
          protocols := (env.WmProtocolsGet id).getD []
          winTypes := resolvedWinTypes env id
          transientFor := (w3.heap w.next).transientFor
          primaryType := (classify (resolvedWinTypes env id)).1
          layer := (classify (resolvedWinTypes env id)).2
          iconified :=
            decide ((resolvedNormalHints env id).Flags &&& HintState > 0) &&
              decide ((resolvedHints env id).InitialState = StateIconic)
          frame := (w3.heap w.next).frame
          states := (w3.heap w.next).states
          hadStruts := (w3.heap w.next).hadStruts
          sticky := decide ((env.WmDesktopGet id).getD 0 = 0xFFFFFFFF)
          workspace :=
            if (env.WmDesktopGet id).getD 0 = 0xFFFFFFFF then Workspacer.StickyWrk
            else Workspacer.concrete w.activeWorkspace } ∧
      w3.trace = w.trace ++ Event.Grab ::
        ((if eligible (w3.heap w.next) then [Event.InitialPlacement w.next] else []) ++
          Event.attachEventCallbacks w.next ::
            ((if (env.WmStrutPartialGet id).isSome then [Event.ApplyStruts] else []) ++
             (if (env.WmDesktopGet id).getD 0 = 0xFFFFFFFF then []
              else [Event.WorkspaceAdd w.activeWorkspace w.next]))) := by
  obtain ⟨c1, w3, -, h2, -, h4, h5, -, -, h8, h9, h10, h11⟩ := New_run env id w g hfind hg
  have hm := (maybeInitPlace_frame env w.next ((enterManage id w).modify w.next fun _ => c1)).2.2.2.2.2.2
  rw [World.modify_heap_self] at hm
  have htr := maybeInitPlace_trace env w.next ((enterManage id w).modify w.next fun _ => c1)
  rw [World.modify_heap_self, World.modify_trace, enterManage_trace] at htr
  have hel : eligible c1 ↔ eligible (w3.heap w.next) := by
    unfold eligible
    rw [h9, hm]
  refine ⟨w3, h4, h11, h5, h8, ?_, ?_⟩
  · generalize (maybeInitPlace env w.next ((enterManage id w).modify w.next fun _ => c1)).heap
      w.next = c2 at hm h9
    rw [h9, hm, h2]
  · rw [h10, htr]
    by_cases he : eligible c1
    · rw [if_pos he, if_pos (hel.mp he)]
      simp
    · rw [if_neg he, if_neg (fun h => he (hel.mpr h))]
      simp

/-! ### Classifier -/

/-- C5: for every declared-window-type list, `setPrimaryType` followed by
`setInitialLayer` does not panic and yields (desktop, LayerDesktop) if the list
contains "_NET_WM_WINDOW_TYPE_DESKTOP", otherwise (dock, LayerDock) if it
contains "_NET_WM_WINDOW_TYPE_DOCK", otherwise (normal, LayerDefault); no other
field of the client changes. -/
theorem classifier_total (c : Client) :
    c.setPrimaryType.setInitialLayer =
      if "_NET_WM_WINDOW_TYPE_DESKTOP" ∈ c.winTypes then
        Except.ok { c with primaryType := clientTypeDesktop, layer := LayerDesktop }
      else if "_NET_WM_WINDOW_TYPE_DOCK" ∈ c.winTypes then
        Except.ok { c with primaryType := clientTypeDock, layer := LayerDock }
      else
        Except.ok { c with primaryType := clientTypeNormal, layer := LayerDefault } := by
  unfold Client.setPrimaryType Client.setInitialLayer Client.hasType
  by_cases h1 : "_NET_WM_WINDOW_TYPE_DESKTOP" ∈ c.winTypes
  · simp [h1]
  · by_cases h2 : "_NET_WM_WINDOW_TYPE_DOCK" ∈ c.winTypes
    · simp [h1, h2, clientTypeDesktop, clientTypeDock]
    · simp [h1, h2, clientTypeDesktop, clientTypeDock, clientTypeNormal]

/-! ### Placement gate -/

/-- C6: `maybeInitPlace` calls `InitialPlacement` exactly once (the trace grows
by that one call) if the client is eligible, and otherwise makes no call and
leaves the frame geometry of the client as it was. -/
theorem maybeInitPlace_gate (env : Env) (p : Ptr) (w : World) :
    if eligible (w.heap p) then
      (maybeInitPlace env p w).trace = w.trace ++ [Event.InitialPlacement p]
    else
      (maybeInitPlace env p w).trace = w.trace ∧
        ((maybeInitPlace env p w).heap p).frame.geom = (w.heap p).frame.geom := by
  by_cases h : eligible (w.heap p)
  · rw [if_pos h, maybeInitPlace_of_eligible env p w h]
    simp
  · rw [if_neg h, maybeInitPlace_of_not_eligible env p w h]
    simp


/-! ### Scenario A: no property can be fetched -/

/-- C9: for an unmanaged window whose geometry can be queried and for which
every property query fails, `New` returns a client with the default WM hints
{flags Input|State, Input = 1, InitialState = normal}, the empty normal hints,
window types ["_NET_WM_WINDOW_TYPE_NORMAL"], primaryType normal, layer
LayerDefault and iconified = false, and its last calls before releasing the
server are `Map` and then `focus.Focus` on that client, neither of which it
made earlier. -/
theorem New_without_properties (env : Env) (id : Window) (w : World) (g : Rect)
    (hfind : FindManagedClient w id = none) (hg : env.Geometry id = some g)
    (hHints : env.WmHintsGet id = none) (hNormal : env.WmNormalHintsGet id = none)
    (hProtocols : env.WmProtocolsGet id = none) (hType : env.WmWindowTypeGet id = none)
    (_hTransient : env.WmTransientForGet id = none) (hDesktop : env.WmDesktopGet id = none)
    (hStrut : env.WmStrutPartialGet id = none) :
    ∃ w1 mid, New env id w = Except.ok (some w.next, w1) ∧
      (w1.heap w.next).hints =
        { Flags := HintInput ||| HintState, Input := 1, InitialState := StateNormal } ∧
      (w1.heap w.next).nhints = {} ∧
      (w1.heap w.next).protocols = [] ∧
      (w1.heap w.next).winTypes = ["_NET_WM_WINDOW_TYPE_NORMAL"] ∧
      (w1.heap w.next).primaryType = clientTypeNormal ∧
      (w1.heap w.next).layer = LayerDefault ∧
      (w1.heap w.next).iconified = false ∧
      w1.trace = w.trace ++ Event.Grab :: mid ++
        [Event.Map w.next, Event.Focus w.next, Event.Ungrab] ∧
      Event.Map w.next ∉ mid ∧ Event.Focus w.next ∉ mid := by
  obtain ⟨w3, -, hnew, -, -, hrec, htr⟩ := New_result env id w g hfind hg
  have hH : resolvedHints env id =
      { Flags := HintInput ||| HintState, Input := 1, InitialState := StateNormal } := by
    simp [resolvedHints, hHints]
  have hN : resolvedNormalHints env id = {} := by
    simp [resolvedNormalHints, hNormal]
  have hT : resolvedWinTypes env id = ["_NET_WM_WINDOW_TYPE_NORMAL"] := by
    simp [resolvedWinTypes, hType]
  have hcl : classify ["_NET_WM_WINDOW_TYPE_NORMAL"] = (clientTypeNormal, LayerDefault) := by
    decide
  rw [hH, hN, hT, hcl, hProtocols] at hrec
  have hic : (w3.heap w.next).iconified = false := by
    rw [hrec]
    rfl
  have hpt : (w3.heap w.next).primaryType = clientTypeNormal := by
    rw [hrec]
  rw [hnew, if_pos hic, if_pos hpt]
  refine ⟨_, (if eligible (w3.heap w.next) then [Event.InitialPlacement w.next] else []) ++
      [Event.attachEventCallbacks w.next, Event.WorkspaceAdd w.activeWorkspace w.next],
    rfl, ?_, ?_, ?_, ?_, hpt, ?_, hic, ?_, ?_, ?_⟩
  · simp only [Focus, Map, World.emit_heap]
    rw [hrec]
  · simp only [Focus, Map, World.emit_heap]
    rw [hrec]
  · simp only [Focus, Map, World.emit_heap]
    rw [hrec]
    rfl
  · simp only [Focus, Map, World.emit_heap]
    rw [hrec]
  · simp only [Focus, Map, World.emit_heap]
    rw [hrec]
  · simp only [Focus, Map, World.emit_trace, htr, hStrut, hDesktop]
    simp
  · split <;> simp
  · split <;> simp

/-- The calls `New` makes after `manage` leave the heap and the registries alone. -/
theorem New_tail_fields (p : Ptr) (w3 : World) (a b : Prop) [Decidable a] [Decidable b] :
    ((if a then (if b then Focus p (Map p w3) else Map p w3) else w3).emit Event.Ungrab).heap
        = w3.heap ∧
    ((if a then (if b then Focus p (Map p w3) else Map p w3) else w3).emit Event.Ungrab).Clients
        = w3.Clients ∧
    ((if a then (if b then Focus p (Map p w3) else Map p w3) else w3).emit Event.Ungrab).focusStack
        = w3.focusStack ∧
    ((if a then (if b then Focus p (Map p w3) else Map p w3) else w3).emit Event.Ungrab).stacking
        = w3.stacking := by
  by_cases ha : a <;> by_cases hb : b <;> simp [ha, hb, Focus, Map]

/-- After `New`, looking the window up in the registry finds the new client. -/
theorem FindManagedClient_after (w w3 : World) (id : Window)
    (hfind : FindManagedClient w id = none)
    (hC : w3.Clients = w.Clients ++ [w.next])
    (ho : ∀ q, q ≠ w.next → w3.heap q = w.heap q)
    (hwin : (w3.heap w.next).win = id) :
    FindManagedClient w3 id = some w.next := by
  unfold FindManagedClient at hfind ⊢
  rw [hC, List.find?_append]
  rw [List.find?_eq_none] at hfind
  clear hC
  revert hfind
  generalize w.Clients = l
  intro hfind
  induction l with
  | nil => simp [hwin]
  | cons q rest ih =>
    have hq := hfind q (List.mem_cons_self q rest)
    by_cases hqp : q = w.next
    · subst hqp
      simp [List.find?_cons, hwin]
    · have hne : ¬ (w3.heap q).win = id := by
        rw [ho q hqp]
        simpa using hq
      simp only [List.find?_cons, hne, decide_False]
      exact ih (fun x hx => hfind x (List.mem_cons_of_mem q hx))

/-! ### Idempotence -/

/-- C7: if the window id is not managed and its geometry can be queried, the
first `New(id)` returns a client and adds it to the registry, where
`FindManagedClient(id)` then finds it; a second `New(id)` on the resulting state
(whatever the X server answers by then) returns nil and leaves the registry,
the focus stack and the stacking order unchanged, and the registry holds
exactly one client with that id. -/
theorem New_idempotent (env env2 : Env) (id : Window) (w : World) (g : Rect)
    (hwf : w.WF) (hfind : FindManagedClient w id = none) (hg : env.Geometry id = some g) :
    ∃ w1, New env id w = Except.ok (some w.next, w1) ∧
      w1.Clients = w.Clients ++ [w.next] ∧
      (w1.heap w.next).win = id ∧
      FindManagedClient w1 id = some w.next ∧
      ∃ w2, New env2 id w1 = Except.ok (none, w2) ∧
        w2.Clients = w1.Clients ∧
        w2.focusStack = w1.focusStack ∧
        w2.stacking = w1.stacking ∧
        w2.Clients.filter (fun q => decide ((w2.heap q).win = id)) = [w.next] := by
  obtain ⟨w3, -, hnew, hC, ho, hrec, -⟩ := New_result env id w g hfind hg
  have hwin : (w3.heap w.next).win = id := by
    rw [hrec]
    rfl
  obtain ⟨t1, t2, -, -⟩ := New_tail_fields w.next w3 ((w3.heap w.next).iconified = false)
    ((w3.heap w.next).primaryType = clientTypeNormal)
  rw [hnew]
  generalize (if (w3.heap w.next).iconified = false then
      (if (w3.heap w.next).primaryType = clientTypeNormal then Focus w.next (Map w.next w3)
       else Map w.next w3)
     else w3).emit Event.Ungrab = w1 at t1 t2
  have hC1 : w1.Clients = w.Clients ++ [w.next] := by rw [t2, hC]
  have hwin1 : (w1.heap w.next).win = id := by rw [t1, hwin]
  have ho1 : ∀ q, q ≠ w.next → w1.heap q = w.heap q := by
    intro q hq
    rw [t1, ho q hq]
  have hfound : FindManagedClient w1 id = some w.next :=
    FindManagedClient_after w w1 id hfind hC1 ho1 hwin1
  refine ⟨w1, rfl, hC1, hwin1, hfound, (w1.emit Event.Grab).emit Event.Ungrab, ?_, rfl, rfl, rfl, ?_⟩
  · unfold New
    have h2 : FindManagedClient (w1.emit Event.Grab) id = some w.next := by
      rw [← hfound]
      exact FindManagedClient_congr _ _ _ rfl (fun _ => rfl)
    simp only [h2]
  · simp only [World.emit_Clients, World.emit_heap, hC1, List.filter_append]
    have hnil : List.filter (fun q => decide ((w1.heap q).win = id)) w.Clients = [] := by
      rw [List.filter_eq_nil_iff]
      intro q hq
      have hqp : q ≠ w.next := Nat.ne_of_lt (hwf q hq)
      rw [ho1 q hqp]
      unfold FindManagedClient at hfind
      rw [List.find?_eq_none] at hfind
      exact hfind q hq
    rw [hnil]
    simp [hwin1]


/-- Allocating the new client does not change what the registry finds. -/
theorem FindManagedClient_enterManage (id x : Window) (w : World) (hwf : w.WF) :
    FindManagedClient (enterManage id w) x = FindManagedClient w x := by
  unfold FindManagedClient
  rw [enterManage_Clients]
  have h : ∀ q ∈ w.Clients, ((enterManage id w).heap q).win = (w.heap q).win := by
    intro q hq
    rw [enterManage_heap_other id w q (Nat.ne_of_lt (hwf q hq))]
  revert h
  generalize w.Clients = l
  intro h
  induction l with
  | nil => rfl
  | cons q rest ih =>
    simp only [List.find?_cons, h q (List.mem_cons_self q rest)]
    rw [ih (fun r hr => h r (List.mem_cons_of_mem q hr))]

/-- The steps of `manage` between `fetchXProperties` and `maybeInitPlace` do not
assign `transientFor`. -/
theorem manageUntilPlacement_transientFor (env : Env) (p : Ptr) (w : World) (w0 : World)
    (h : manageUntilPlacement env p w = Except.ok w0) :
    (w0.heap p).transientFor =
      ((fetchXProperties env p
        (w.modify p fun c => { c with name := env.refreshName c.win })).heap p).transientFor := by
  unfold manageUntilPlacement at h
  simp only [] at h
  obtain ⟨t, hf, -⟩ := fetchXProperties_eq env p
    (w.modify p fun c => { c with name := env.refreshName c.win })
  rw [hf] at h ⊢
  simp only [World.modify_modify, World.modify_heap_self, setInitialLayer_setPrimaryType] at h ⊢
  split at h
  · simp only [MoveResize, World.modify_modify, Except.ok.injEq] at h
    rw [← h]
    simp
  · simp only [Move, World.modify_modify, Except.ok.injEq] at h
    rw [← h]
    simp

/-! ### Transient-for -/

/-- C8: for a client created by `New` (window id not managed, geometry
queryable) and whatever the transient-for query returns, `transientFor` after
`fetchXProperties` is nil or a registered client other than the new one; for a
non-zero id it is exactly what the registry finds for that id (so nil for the
window's own id and for an unmanaged window); the state `maybeInitPlace` runs on
already carries that value, and so does the client `New` returns. -/
theorem transientFor_not_self (env : Env) (id : Window) (w : World) (g : Rect)
    (hwf : w.WF) (hfind : FindManagedClient w id = none) (hg : env.Geometry id = some g) :
    ∃ w0 w1,
      manageUntilPlacement env w.next (enterManage id w) = Except.ok w0 ∧
      New env id w = Except.ok (some w.next, w1) ∧
      ((fetchXProperties env w.next
          ((enterManage id w).modify w.next fun c =>
            { c with name := env.refreshName c.win })).heap w.next).transientFor =
        (w0.heap w.next).transientFor ∧
      (w1.heap w.next).transientFor = (w0.heap w.next).transientFor ∧
      (w0.heap w.next).transientFor ≠ some w.next ∧
      ((w0.heap w.next).transientFor = none ∨
        ∃ q ∈ w.Clients, q ≠ w.next ∧ (w0.heap w.next).transientFor = some q) ∧
      ((env.WmTransientForGet id).getD 0 ≠ 0 →
        (w0.heap w.next).transientFor =
          FindManagedClient w ((env.WmTransientForGet id).getD 0)) ∧
      (env.WmTransientForGet id = some id → id ≠ 0 → (w0.heap w.next).transientFor = none) := by
  obtain ⟨c1, w3, h1, -, h3, -, -, -, -, -, h9, -, h11⟩ := New_run env id w g hfind hg
  have hm := (maybeInitPlace_frame env w.next
    ((enterManage id w).modify w.next fun _ => c1)).2.2.2.2.2.2
  rw [World.modify_heap_self] at hm
  have hfin : (w3.heap w.next).transientFor = c1.transientFor := by
    rw [h9, hm]
  obtain ⟨t1, -, -, -⟩ := New_tail_fields w.next w3 ((w3.heap w.next).iconified = false)
    ((w3.heap w.next).primaryType = clientTypeNormal)
  have hres : (env.WmTransientForGet id).getD 0 ≠ 0 →
      c1.transientFor = FindManagedClient w ((env.WmTransientForGet id).getD 0) := by
    intro hne
    rcases h3 with ⟨h3a, h3b⟩ | ⟨q, -, h3a, h3b⟩
    · rw [h3a, ← FindManagedClient_enterManage id _ w hwf, h3b hne]
    · rw [h3a, ← FindManagedClient_enterManage id _ w hwf, h3b hne]
  have hmem : c1.transientFor = none ∨
      ∃ q ∈ w.Clients, q ≠ w.next ∧ c1.transientFor = some q := by
    rcases h3 with ⟨h3a, -⟩ | ⟨q, hq, h3a, -⟩
    · exact Or.inl h3a
    · exact Or.inr ⟨q, hq, Nat.ne_of_lt (hwf q hq), h3a⟩
  refine ⟨_, _, h1, h11, ?_, ?_, ?_, ?_, ?_, ?_⟩
  · rw [manageUntilPlacement_transientFor env w.next (enterManage id w) _ h1]
  · rw [t1, World.modify_heap_self]
    exact hfin
  · rw [World.modify_heap_self]
    rcases hmem with h | ⟨q, -, hq, h⟩
    · rw [h]
      exact Option.noConfusion
    · rw [h]
      intro hc
      exact hq (Option.some.inj hc)
  · rw [World.modify_heap_self]
    exact hmem
  · rw [World.modify_heap_self]
    exact hres
  · rw [World.modify_heap_self]
    intro hown hne
    have := hres (by rw [hown]; exact hne)
    rw [this, hown]
    exact hfind


/-- The type assertion in `stick` fails exactly on the sticky pseudo-workspace. -/
theorem stick_ok_iff (p : Ptr) (v : World) :
    (∃ v1, stick p v = Except.ok v1) ↔ (v.heap p).workspace ≠ Workspacer.StickyWrk := by
  unfold stick
  simp only [World.modify_heap_self]
  cases h : (v.heap p).workspace <;> simp

theorem stick_heap (p : Ptr) (v v1 : World) (h : stick p v = Except.ok v1) :
    (v1.heap p).sticky = true ∧ (v1.heap p).workspace = Workspacer.StickyWrk := by
  unfold stick at h
  simp only [World.modify_heap_self] at h
  cases hw : (v.heap p).workspace <;> rw [hw] at h <;> simp at h <;> rw [← h] <;> simp

theorem unstick_heap (p : Ptr) (v : World) :
    ((unstick p v).heap p).sticky = false ∧
      ((unstick p v).heap p).workspace = Workspacer.concrete v.activeWorkspace := by
  simp [unstick, WorkspaceAdd]

theorem stickyInvariant_of_sticky (c : Client) (h1 : c.sticky = true)
    (h2 : c.workspace = Workspacer.StickyWrk) : stickyInvariant c := by
  unfold stickyInvariant
  left
  exact ⟨⟨h1, h2⟩, fun h => by simp [h1] at h⟩

theorem stickyInvariant_of_concrete (c : Client) (wrk : Nat) (h1 : c.sticky = false)
    (h2 : c.workspace = Workspacer.concrete wrk) : stickyInvariant c := by
  unfold stickyInvariant
  right
  exact ⟨⟨h1, wrk, h2⟩, fun h => by simp [h1] at h⟩

theorem stickyInvariant_cases (c : Client) (h : stickyInvariant c) :
    (c.sticky = true ∧ c.workspace = Workspacer.StickyWrk) ∨
      (c.sticky = false ∧ ∃ wrk, c.workspace = Workspacer.concrete wrk) := by
  unfold stickyInvariant at h
  rcases h with ⟨h, -⟩ | ⟨h, -⟩
  · exact Or.inl h
  · exact Or.inr h

/-- One `StickyToggle` from a state satisfying the invariant does not panic
and re-establishes the invariant. -/
theorem StickyToggle_invariant (p : Ptr) (v : World) (h : stickyInvariant (v.heap p)) :
    ∃ v1, StickyToggle p v = Except.ok v1 ∧ stickyInvariant (v1.heap p) := by
  unfold StickyToggle
  rcases stickyInvariant_cases _ h with ⟨hs, -⟩ | ⟨hs, wrk, hw⟩
  · rw [if_pos hs]
    exact ⟨_, rfl, stickyInvariant_of_concrete _ _ (unstick_heap p v).1 (unstick_heap p v).2⟩
  · rw [if_neg (by simp [hs])]
    obtain ⟨v1, hv1⟩ := (stick_ok_iff p v).2 (by rw [hw]; simp)
    exact ⟨v1, hv1, stickyInvariant_of_sticky _ (stick_heap p v v1 hv1).1 (stick_heap p v v1 hv1).2⟩

theorem StickyToggles_invariant (p : Ptr) (n : Nat) (v : World)
    (h : stickyInvariant (v.heap p)) :
    ∃ v1, StickyToggles p n v = Except.ok v1 ∧ stickyInvariant (v1.heap p) := by
  induction n generalizing v with
  | zero => exact ⟨v, rfl, h⟩
  | succ n ih =>
    obtain ⟨v1, h1, h2⟩ := StickyToggle_invariant p v h
    obtain ⟨v2, h3, h4⟩ := ih v1 h2
    refine ⟨v2, ?_, h4⟩
    simp only [StickyToggles, h1]
    exact h3

/-- The client `New` returns satisfies the stickiness invariant. -/
theorem New_stickyInvariant (env : Env) (id : Window) (w : World) (g : Rect)
    (hfind : FindManagedClient w id = none) (hg : env.Geometry id = some g) :
    ∃ w0 w1, manage env w.next (enterManage id w) = Except.ok w0 ∧
      stickyInvariant (w0.heap w.next) ∧
      New env id w = Except.ok (some w.next, w1) ∧ stickyInvariant (w1.heap w.next) := by
  obtain ⟨w3, hm, hnew, -, -, hrec, -⟩ := New_result env id w g hfind hg
  obtain ⟨t1, -, -, -⟩ := New_tail_fields w.next w3 ((w3.heap w.next).iconified = false)
    ((w3.heap w.next).primaryType = clientTypeNormal)
  have hinv : stickyInvariant (w3.heap w.next) := by
    by_cases hd : (env.WmDesktopGet id).getD 0 = 0xFFFFFFFF
    · apply stickyInvariant_of_sticky
      · rw [hrec]
        simp [hd]
      · rw [hrec]
        simp [hd]
    · apply stickyInvariant_of_concrete _ w.activeWorkspace
      · rw [hrec]
        simp [hd]
      · rw [hrec]
        simp [hd]
  refine ⟨w3, _, hm, hinv, hnew, ?_⟩
  rw [t1]
  exact hinv

/-! ### Stickiness -/

/-- C4: with `Workspace.Add` making the active workspace the workspace of the
client: right after `manage` returns, and after any number of `StickyToggle`
calls following `New`, exactly one of (sticky and workspace = wm.StickyWrk) and
(not sticky and workspace concrete) holds, workspace is never nil and never
concrete while sticky, and no call panics; a single `stick` from an invariant
state with sticky = false, or `unstick` from one with sticky = true, gives an
invariant state again. -/
theorem sticky_workspace_invariant (env : Env) (id : Window) (w : World) (g : Rect)
    (hfind : FindManagedClient w id = none) (hg : env.Geometry id = some g) :
    (∃ w0, manage env w.next (enterManage id w) = Except.ok w0 ∧
      stickyInvariant (w0.heap w.next)) ∧
    (∃ w1, New env id w = Except.ok (some w.next, w1) ∧
      ∀ n, ∃ w2, StickyToggles w.next n w1 = Except.ok w2 ∧
        stickyInvariant (w2.heap w.next) ∧
        (w2.heap w.next).workspace ≠ Workspacer.nil ∧
        ((w2.heap w.next).sticky = true →
          ∀ wrk, (w2.heap w.next).workspace ≠ Workspacer.concrete wrk)) ∧
    (∀ (p : Ptr) (v : World), stickyInvariant (v.heap p) → (v.heap p).sticky = false →
      ∃ v1, stick p v = Except.ok v1 ∧ stickyInvariant (v1.heap p)) ∧
    (∀ (p : Ptr) (v : World), stickyInvariant (v.heap p) → (v.heap p).sticky = true →
      stickyInvariant ((unstick p v).heap p)) := by
  obtain ⟨w0, w1, hm, hi0, hnew, hi1⟩ := New_stickyInvariant env id w g hfind hg
  refine ⟨⟨w0, hm, hi0⟩, ⟨w1, hnew, fun n => ?_⟩, ?_, ?_⟩
  · obtain ⟨w2, h2, hi2⟩ := StickyToggles_invariant w.next n w1 hi1
    refine ⟨w2, h2, hi2, ?_, ?_⟩
    · rcases stickyInvariant_cases _ hi2 with ⟨-, hw⟩ | ⟨-, wrk, hw⟩ <;> rw [hw] <;> simp
    · intro hs wrk
      rcases stickyInvariant_cases _ hi2 with ⟨-, hw⟩ | ⟨hs2, -⟩
      · rw [hw]
        simp
      · rw [hs] at hs2
        exact absurd hs2 (by simp)
  · intro p v hi hs
    rcases stickyInvariant_cases _ hi with ⟨hs2, -⟩ | ⟨-, wrk, hw⟩
    · rw [hs] at hs2
      exact absurd hs2 (by simp)
    · obtain ⟨v1, hv1⟩ := (stick_ok_iff p v).2 (by rw [hw]; simp)
      exact ⟨v1, hv1,
        stickyInvariant_of_sticky _ (stick_heap p v v1 hv1).1 (stick_heap p v v1 hv1).2⟩
  · intro p v _ _
    exact stickyInvariant_of_concrete _ _ (unstick_heap p v).1 (unstick_heap p v).2

/-- C10: the type assertion in `stick` fails exactly when `c.workspace` is the
sticky pseudo-workspace; `New` never panics, and in every state reached from
the client it returns by any number of `StickyToggle` calls no call has
panicked, and whenever the next `StickyToggle` would enter `stick` (sticky is
false) `c.workspace` is nil or a concrete workspace. -/
theorem stick_downcast_safe (env : Env) (id : Window) (w : World) :
    (∀ (p : Ptr) (v : World),
      (∃ v1, stick p v = Except.ok v1) ↔ (v.heap p).workspace ≠ Workspacer.StickyWrk) ∧
    ∃ r, New env id w = Except.ok r ∧
      ∀ p, r.1 = some p → ∀ n, ∃ w2, StickyToggles p n r.2 = Except.ok w2 ∧
        ((w2.heap p).sticky = false →
          (w2.heap p).workspace = Workspacer.nil ∨
            ∃ wrk, (w2.heap p).workspace = Workspacer.concrete wrk) ∧
        ((w2.heap p).sticky = true → (w2.heap p).workspace = Workspacer.StickyWrk) := by
  refine ⟨stick_ok_iff, ?_⟩
  cases hfind : FindManagedClient w id with
  | some q =>
    refine ⟨(none, (w.emit Event.Grab).emit Event.Ungrab), ?_, ?_⟩
    · unfold New
      have h2 : FindManagedClient (w.emit Event.Grab) id = some q := by
        rw [← hfind]
        exact FindManagedClient_congr _ _ _ rfl (fun _ => rfl)
      simp only [h2]
    · intro p hp
      exact absurd hp (by simp)
  | none =>
    cases hg : env.Geometry id with
    | none =>
      refine ⟨(none, (w.emit Event.Grab).emit Event.Ungrab), ?_, ?_⟩
      · unfold New
        have h2 : FindManagedClient (w.emit Event.Grab) id = none := by
          rw [← hfind]
          exact FindManagedClient_congr _ _ _ rfl (fun _ => rfl)
        simp only [h2, hg]
      · intro p hp
        exact absurd hp (by simp)
    | some g =>
      obtain ⟨w0, w1, -, -, hnew, hi1⟩ := New_stickyInvariant env id w g hfind hg
      refine ⟨(some w.next, w1), hnew, ?_⟩
      intro p hp n
      have hp2 : w.next = p := Option.some.inj hp
      subst hp2
      obtain ⟨w2, h2, hi2⟩ := StickyToggles_invariant w.next n w1 hi1
      refine ⟨w2, h2, ?_, ?_⟩
      · intro hs
        rcases stickyInvariant_cases _ hi2 with ⟨hs2, -⟩ | ⟨-, wrk, hw⟩
        · rw [hs] at hs2
          exact absurd hs2 (by simp)
        · exact Or.inr ⟨wrk, hw⟩
      · intro hs
        rcases stickyInvariant_cases _ hi2 with ⟨-, hw⟩ | ⟨hs2, -⟩
        · exact hw
        · rw [hs] at hs2
          exact absurd hs2 (by simp)


/-! ### The "last-floating" snapshot -/

/-- C3 (counterexample): on a server that answers no property query, with a
floating layout that places the client at (7, 7), the client is eligible, its
frame is at (0, 0) immediately before the `InitialPlacement` call, and the
snapshot recorded under "last-floating" has the geometry (7, 7) that
`InitialPlacement` left behind, not the geometry before the call. -/
theorem last_floating_not_pre_placement :
    ∃ w0 w1 s,
      manageUntilPlacement envNoProperties 0 (enterManage 5 emptyWorld) = Except.ok w0 ∧
      eligible (w0.heap 0) ∧
      manage envNoProperties 0 (enterManage 5 emptyWorld) = Except.ok w1 ∧
      mapGet (w1.heap 0).states "last-floating" = some s ∧
      (w0.heap 0).frame.geom = ⟨0, 0, 10, 10⟩ ∧
      s.geom = ⟨7, 7, 10, 10⟩ ∧
      s.geom ≠ (w0.heap 0).frame.geom := by
  refine ⟨_, _, _, rfl, ?_, rfl, rfl, rfl, rfl, ?_⟩
  · decide
  · decide

/-- C3 (amended): for every eligible client and every behaviour of
`InitialPlacement`, after `manage` completes `states["last-floating"]` exists
and its geom is the frame geometry `InitialPlacement` left the client with
(the frame geometry right after `maybeInitPlace`), its headGeom is the geometry
of the active workspace, and its frame and maximized flag are the client's. -/
theorem last_floating_snapshot (env : Env) (id : Window) (w : World) (g : Rect)
    (hfind : FindManagedClient w id = none) (hg : env.Geometry id = some g) :
    ∃ w0 w1,
      manageUntilPlacement env w.next (enterManage id w) = Except.ok w0 ∧
      manage env w.next (enterManage id w) = Except.ok w1 ∧
      (eligible (w0.heap w.next) →
        ∃ s, mapGet (w1.heap w.next).states "last-floating" = some s ∧
          s.geom = env.InitialPlacement (env.WorkspaceGeom w.activeWorkspace) w0 w.next ∧
          s.geom = ((maybeInitPlace env w.next w0).heap w.next).frame.geom ∧
          s.headGeom = env.WorkspaceGeom w.activeWorkspace ∧
          s.frame = (w0.heap w.next).frame.ref ∧
          s.maximized = (w0.heap w.next).maximized) := by
  obtain ⟨c1, w3, h1, -, -, h4, -, -, -, -, h9, -, -⟩ := New_run env id w g hfind hg
  refine ⟨_, w3, h1, h4, fun hel => ?_⟩
  have hst : (w3.heap w.next).states =
      ((maybeInitPlace env w.next ((enterManage id w).modify w.next fun _ => c1)).heap
        w.next).states := by
    rw [h9]
  rw [hst, maybeInitPlace_of_eligible env w.next _ hel]
  simp only [World.modify_heap_self, World.emit_heap, World.modify_activeWorkspace,
    enterManage_activeWorkspace, World.emit_activeWorkspace]
  exact ⟨_, mapGet_mapSet _ _ _, rfl, rfl, rfl, rfl, rfl⟩

/-- C2 (the code at the failing input): a normal window whose normal hints set
the program-specified position flag is managed and put on the active
workspace, `maybeInitPlace` returns early without touching the client, and
after `New` the states map has no entry under "last-floating". -/
theorem last_floating_missing_when_not_placed :
    ∃ w0 w1,
      manageUntilPlacement envPPosition 0 (enterManage 5 emptyWorld) = Except.ok w0 ∧
      (w0.heap 0).primaryType = clientTypeNormal ∧
      (w0.heap 0).nhints.Flags = SizeHintPPosition ∧
      mapGet ((maybeInitPlace envPPosition 0 w0).heap 0).states "last-floating" = none ∧
      New envPPosition 5 emptyWorld = Except.ok (some 0, w1) ∧
      (w1.heap 0).workspace = Workspacer.concrete 0 ∧
      mapGet (w1.heap 0).states "last-floating" = none := by
  exact ⟨_, _, rfl, rfl, rfl, rfl, rfl, rfl, rfl⟩

/-! ### Scenario B: initial state iconic -/

/-- C1 (the code at the failing input): a window whose WM hints have the state
flag set and initial state iconic, and which has no normal hints, is returned
by `New` with iconified = false, in the registry, and `New` calls `Map` and
`focus.Focus` on it: the state flag is tested on the normal hints. -/
theorem iconic_window_is_mapped :
    ∃ w1,
      New envIconic 5 emptyWorld = Except.ok (some 0, w1) ∧
      (w1.heap 0).hints.Flags &&& HintState > 0 ∧
      (w1.heap 0).hints.InitialState = StateIconic ∧
      (w1.heap 0).nhints = {} ∧
      (w1.heap 0).iconified = false ∧
      w1.Clients = [0] ∧
      w1.trace = [Event.Grab, Event.InitialPlacement 0, Event.attachEventCallbacks 0,
        Event.WorkspaceAdd 0 0, Event.Map 0, Event.Focus 0, Event.Ungrab] := by
  refine ⟨_, rfl, ?_, rfl, rfl, rfl, rfl, rfl⟩
  decide


/-! ### Instances at concrete inputs -/

theorem worldWithClient_WF : worldWithClient.WF := by
  intro q hq
  simp only [worldWithClient, List.mem_singleton] at hq
  subst hq
  decide

/-- C9 at a concrete input: window 5 on a server that answers no property
query, with one other client managed. -/
theorem New_without_properties_witness :
    FindManagedClient worldWithClient 5 = none ∧
    envNoProperties.Geometry 5 = some ⟨0, 0, 10, 10⟩ ∧
    ∃ w1, New envNoProperties 5 worldWithClient = Except.ok (some 1, w1) ∧
      (w1.heap 1).primaryType = clientTypeNormal ∧
      (w1.heap 1).layer = LayerDefault ∧
      (w1.heap 1).iconified = false := by
  refine ⟨rfl, rfl, ?_⟩
  obtain ⟨w1, _, h, _, _, _, _, hp, hl, hi, _⟩ :=
    New_without_properties envNoProperties 5 worldWithClient ⟨0, 0, 10, 10⟩
      rfl rfl rfl rfl rfl rfl rfl rfl rfl
  exact ⟨w1, h, hp, hl, hi⟩

/-- C7 at a concrete input: window 5 managed twice, with one other client
managed before. -/
theorem New_idempotent_witness :
    worldWithClient.WF ∧
    FindManagedClient worldWithClient 5 = none ∧
    envNoProperties.Geometry 5 = some ⟨0, 0, 10, 10⟩ ∧
    ∃ w1, New envNoProperties 5 worldWithClient = Except.ok (some 1, w1) ∧
      w1.Clients = [0, 1] ∧
      ∃ w2, New envIconic 5 w1 = Except.ok (none, w2) ∧ w2.Clients = w1.Clients ∧
        w2.Clients.filter (fun q => decide ((w2.heap q).win = 5)) = [1] := by
  refine ⟨worldWithClient_WF, rfl, rfl, ?_⟩
  obtain ⟨w1, h1, h2, _, _, w2, h3, h4, _, _, h5⟩ :=
    New_idempotent envNoProperties envIconic 5 worldWithClient ⟨0, 0, 10, 10⟩
      worldWithClient_WF rfl rfl
  exact ⟨w1, h1, h2, w2, h3, h4, h5⟩

/-- C8 at a concrete input: window 5 declares itself transient for the managed
window 3, whose client is at pointer 0. -/
theorem transientFor_not_self_witness :
    worldWithClient.WF ∧
    FindManagedClient worldWithClient 5 = none ∧
    envTransientFor3.Geometry 5 = some ⟨0, 0, 10, 10⟩ ∧
    ∃ w0 w1,
      manageUntilPlacement envTransientFor3 1 (enterManage 5 worldWithClient) = Except.ok w0 ∧
      New envTransientFor3 5 worldWithClient = Except.ok (some 1, w1) ∧
      (w0.heap 1).transientFor ≠ some 1 ∧
      (w0.heap 1).transientFor = some 0 ∧
      (w1.heap 1).transientFor = some 0 := by
  refine ⟨worldWithClient_WF, rfl, rfl, ?_⟩
  obtain ⟨w0, w1, h1, h2, _, h4, h5, _, h7, _⟩ :=
    transientFor_not_self envTransientFor3 5 worldWithClient ⟨0, 0, 10, 10⟩
      worldWithClient_WF rfl rfl
  have h8 : (w0.heap 1).transientFor = some 0 := h7 (by decide)
  exact ⟨w0, w1, h1, h2, h5, h8, h4.trans h8⟩

/-- C4 at a concrete input: window 5 asks to be on all desktops, and is then
toggled three times. -/
theorem sticky_workspace_invariant_witness :
    FindManagedClient worldWithClient 5 = none ∧
    envAllDesktops.Geometry 5 = some ⟨0, 0, 10, 10⟩ ∧
    ∃ w1 w2, New envAllDesktops 5 worldWithClient = Except.ok (some 1, w1) ∧
      StickyToggles 1 3 w1 = Except.ok w2 ∧ stickyInvariant (w2.heap 1) := by
  refine ⟨rfl, rfl, ?_⟩
  obtain ⟨_, ⟨w1, h1, h2⟩, _, _⟩ :=
    sticky_workspace_invariant envAllDesktops 5 worldWithClient ⟨0, 0, 10, 10⟩ rfl rfl
  obtain ⟨w2, h3, h4, _⟩ := h2 3
  exact ⟨w1, w2, h1, h3, h4⟩

/-- C10 at a concrete input: window 5 asks to be on all desktops, and is then
toggled four times without a panic. -/
theorem stick_downcast_safe_witness :
    ∃ r w2, New envAllDesktops 5 worldWithClient = Except.ok r ∧ r.1 = some 1 ∧
      StickyToggles 1 4 r.2 = Except.ok w2 ∧
      ((w2.heap 1).sticky = true → (w2.heap 1).workspace = Workspacer.StickyWrk) := by
  obtain ⟨r, h1, h2⟩ := (stick_downcast_safe envAllDesktops 5 worldWithClient).2
  have h3 : ∃ w1, New envAllDesktops 5 worldWithClient = Except.ok (some 1, w1) := ⟨_, rfl⟩
  obtain ⟨w1, h3⟩ := h3
  have hr : r = (some 1, w1) := Except.ok.inj (h1.symm.trans h3)
  have hp : r.1 = some 1 := by rw [hr]
  obtain ⟨w2, h4, _, h5⟩ := h2 1 hp 4
  exact ⟨r, w2, h1, hp, h4, h5⟩

/-- C3 (amended) at a concrete input: window 5 on a server that answers no
property query; the floating layout places it at (7, 7). -/
theorem last_floating_snapshot_witness :
    FindManagedClient emptyWorld 5 = none ∧
    envNoProperties.Geometry 5 = some ⟨0, 0, 10, 10⟩ ∧
    ∃ w0 w1 s,
      manageUntilPlacement envNoProperties 0 (enterManage 5 emptyWorld) = Except.ok w0 ∧
      eligible (w0.heap 0) ∧
      manage envNoProperties 0 (enterManage 5 emptyWorld) = Except.ok w1 ∧
      mapGet (w1.heap 0).states "last-floating" = some s ∧
      s.geom = ⟨7, 7, 10, 10⟩ := by
  refine ⟨rfl, rfl, ?_⟩
  obtain ⟨w0, w1, h1, h2, h3⟩ :=
    last_floating_snapshot envNoProperties 5 emptyWorld ⟨0, 0, 10, 10⟩ rfl rfl
  have h0 : w0 = _ := Except.ok.inj (h1.symm.trans
    (rfl : manageUntilPlacement envNoProperties 0 (enterManage 5 emptyWorld) = Except.ok _))
  have hel : eligible (w0.heap 0) := by
    rw [h0]
    decide
  obtain ⟨s, h4, h5, _⟩ := h3 hel
  exact ⟨w0, w1, s, h1, hel, h2, h4, h5⟩

end xclient
